import Mathlib

/-!
Shallow embedding of the position ledger and trade recorder of
`src/quantlab/strategies/ma_cross.py` (class `MaCrossStrategy`, methods
`notify_order` and `notify_trade`), together with proofs of the spec's
testable properties about it.

Prices, sizes and commissions are modelled as rationals (`ℚ`); timestamps
as naturals.  `order.executed.size` is the raw signed size reported by the
engine (positive for BUY, negative for SELL); the code always takes its
absolute value before using it, which the embedding mirrors.
`order.executed.comm` may be `None` in the source (`or 0.0`), hence an
`Option ℚ` field.
-/

namespace QuantLedger

/-- Order side, from `order.isbuy()`. -/
inductive Side where
  | buy
  | sell
deriving DecidableEq, Repr

/-- One completed order fill, as seen by `notify_order` (only the
`order.Completed` path is modelled: the method returns immediately on any
other status without touching the ledger). -/
structure Fill where
  time : ℕ
  side : Side
  size : ℚ
  price : ℚ
  comm : Option ℚ
deriving DecidableEq, Repr

/-- The effective commission: `order.executed.comm or 0.0` in the source. -/
def Fill.commVal (f : Fill) : ℚ := f.comm.getD 0

/-- One entry of `self._fills` / `self.fills_log`: the dict appended by
`notify_order`. -/
structure FillRecord where
  time : ℕ
  side : Side
  size : ℚ
  price : ℚ
  commission : ℚ
deriving DecidableEq, Repr

/-- One entry of `self.trades`: the per-trade summary dict appended by
`notify_trade`. -/
structure TradeSummary where
  entry_time : ℕ
  exit_time : ℕ
  size_peak : ℚ
  avg_entry_cost : ℚ
  gross_pnl : ℚ
  net_pnl : ℚ
  commission : ℚ
  fills_count : ℕ
deriving DecidableEq, Repr

/-- The trade-closed notification delivered by the engine to
`notify_trade`: `trade.isclosed`, `trade.dtopen`, `trade.dtclose`,
`trade.pnl`, `trade.pnlcomm` (may be `None`), `trade.commission`. -/
structure TradeEvent where
  isclosed : Bool
  dtopen : ℕ
  dtclose : ℕ
  pnl : ℚ
  pnlcomm : Option ℚ
  commission : ℚ
deriving DecidableEq, Repr

/-- The strategy instance's mutable ledger attributes:
`_pos_size`, `_avg_cost`, `_realized_pnl`, `_comm_total`,
`_first_entry_time`, `_fills`, `_size_peak`, `trades`, `fills_log`. -/
structure LedgerState where
  pos_size : ℚ
  avg_cost : ℚ
  realized_pnl : ℚ
  comm_total : ℚ
  first_entry_time : Option ℕ
  fills : List FillRecord
  size_peak : ℚ
  trades : List TradeSummary
  fills_log : List FillRecord
deriving DecidableEq, Repr

/-- The attribute values set in `__init__`. -/
def initState : LedgerState :=
  { pos_size := 0
    avg_cost := 0
    realized_pnl := 0
    comm_total := 0
    first_entry_time := none
    fills := []
    size_peak := 0
    trades := []
    fills_log := [] }

/-- The method `MaCrossStrategy.notify_order`, completed-order path.
Here `exportFills` is the `export_fills` strategy parameter. -/
def notify_order (exportFills : Bool) (s : LedgerState) (f : Fill) : LedgerState :=
  -- fill_comm = order.executed.comm or 0.0
  let fill_comm := f.commVal
  -- global fills log (raw executed size), if export_fills
  let s1 : LedgerState :=
    if exportFills then
      { s with fills_log := s.fills_log ++
          [{ time := f.time, side := f.side, size := f.size,
             price := f.price, commission := fill_comm }] }
    else s
  -- self._comm_total += fill_comm
  let s2 : LedgerState := { s1 with comm_total := s1.comm_total + fill_comm }
  match f.side with
  | Side.buy =>
    -- if entering from flat, reset the per-position ledger
    let s3 : LedgerState :=
      if s2.pos_size = 0 then
        { s2 with first_entry_time := some f.time
                  realized_pnl := 0
                  comm_total := fill_comm
                  fills := []
                  size_peak := 0 }
      else s2
    -- track this fill inside current position scope (raw size)
    let s4 : LedgerState := { s3 with fills := s3.fills ++
        [{ time := f.time, side := Side.buy, size := f.size,
           price := f.price, commission := fill_comm }] }
    -- update VWAP average cost
    let new_size := s4.pos_size + |f.size|
    let s5 : LedgerState :=
      if 0 < new_size then
        { s4 with avg_cost :=
            (s4.avg_cost * s4.pos_size + f.price * |f.size|) / new_size }
      else s4
    let s6 : LedgerState := { s5 with pos_size := new_size }
    -- update peak size
    if s6.size_peak < s6.pos_size then { s6 with size_peak := s6.pos_size } else s6
  | Side.sell =>
    -- cap to current size for safety
    let sell_qty := min |f.size| s2.pos_size
    -- realize PnL for the sold portion (pre-commission)
    let s3 : LedgerState := { s2 with realized_pnl :=
        s2.realized_pnl + (f.price - s2.avg_cost) * sell_qty }
    -- track this fill (size negative for clarity)
    let s4 : LedgerState := { s3 with fills := s3.fills ++
        [{ time := f.time, side := Side.sell, size := -sell_qty,
           price := f.price, commission := fill_comm }] }
    -- reduce position size; avg cost unchanged
    { s4 with pos_size := s4.pos_size - sell_qty }

/-- The method `MaCrossStrategy.notify_trade`. -/
def notify_trade (s : LedgerState) (t : TradeEvent) : LedgerState :=
  if ¬ t.isclosed then s
  else
    let dt_open := s.first_entry_time.getD t.dtopen
    let net_pnl := t.pnlcomm.getD t.pnl
    let record : TradeSummary :=
      { entry_time := dt_open
        exit_time := t.dtclose
        size_peak := s.size_peak
        avg_entry_cost := s.avg_cost
        gross_pnl := t.pnl
        net_pnl := net_pnl
        commission := t.commission
        fills_count := s.fills.length }
    { s with trades := s.trades ++ [record]
             pos_size := 0
             avg_cost := 0
             realized_pnl := 0
             comm_total := 0
             first_entry_time := none
             fills := []
             size_peak := 0 }

/-- Process a list of fills in order through `notify_order`. -/
def runFills (exportFills : Bool) (s : LedgerState) (fs : List Fill) : LedgerState :=
  fs.foldl (notify_order exportFills) s

/-- One notification from the engine: an order fill or a trade closure. -/
inductive Event where
  | fill (f : Fill)
  | trade (t : TradeEvent)
deriving DecidableEq, Repr

/-- Dispatch one notification to the ledger. -/
def step (exportFills : Bool) (s : LedgerState) : Event → LedgerState
  | Event.fill f => notify_order exportFills s f
  | Event.trade t => notify_trade s t

/-- Process a list of notifications in order. -/
def runEvents (exportFills : Bool) (s : LedgerState) (evs : List Event) : LedgerState :=
  evs.foldl (step exportFills) s

/-- Total quantity of a list of fills. -/
def sumQty (fs : List Fill) : ℚ := (fs.map (fun f => f.size)).sum

/-- Total price-times-quantity of a list of fills. -/
def sumPQ (fs : List Fill) : ℚ := (fs.map (fun f => f.price * f.size)).sum

/-- The seven per-position attributes of the ledger (everything except the
append-only `trades` and `fills_log`). -/
def posFields (s : LedgerState) :
    ℚ × ℚ × ℚ × ℚ × Option ℕ × List FillRecord × ℚ :=
  (s.pos_size, s.avg_cost, s.realized_pnl, s.comm_total,
   s.first_entry_time, s.fills, s.size_peak)

/-- The position sizes observed after each successive fill of a list,
processing from `s`. -/
def posTrace (e : Bool) (s : LedgerState) : List Fill → List ℚ
  | [] => []
  | f :: fs => (notify_order e s f).pos_size :: posTrace e (notify_order e s f) fs

/-- Within one position's life the position does not return to flat
mid-sequence: after every fill except possibly the last, `_pos_size` is
nonzero. -/
def noMidFlat (e : Bool) (s : LedgerState) : List Fill → Bool
  | [] => true
  | f :: fs =>
      (fs.isEmpty || decide ((notify_order e s f).pos_size ≠ 0))
        && noMidFlat e (notify_order e s f) fs

/-! ### Per-field characterization lemmas for `notify_order` (SELL branch) -/

lemma sell_pos (e : Bool) (s : LedgerState) (f : Fill) (h : f.side = Side.sell) :
    (notify_order e s f).pos_size = s.pos_size - min |f.size| s.pos_size := by
  rcases f with ⟨t, sd, sz, p, c⟩
  cases sd
  · simp at h
  · simp [notify_order]; split_ifs <;> simp

lemma sell_avg (e : Bool) (s : LedgerState) (f : Fill) (h : f.side = Side.sell) :
    (notify_order e s f).avg_cost = s.avg_cost := by
  rcases f with ⟨t, sd, sz, p, c⟩
  cases sd
  · simp at h
  · simp [notify_order]; split_ifs <;> simp

lemma sell_fet (e : Bool) (s : LedgerState) (f : Fill) (h : f.side = Side.sell) :
    (notify_order e s f).first_entry_time = s.first_entry_time := by
  rcases f with ⟨t, sd, sz, p, c⟩
  cases sd
  · simp at h
  · simp [notify_order]; split_ifs <;> simp

lemma sell_peak (e : Bool) (s : LedgerState) (f : Fill) (h : f.side = Side.sell) :
    (notify_order e s f).size_peak = s.size_peak := by
  rcases f with ⟨t, sd, sz, p, c⟩
  cases sd
  · simp at h
  · simp [notify_order]; split_ifs <;> simp

lemma sell_trades (e : Bool) (s : LedgerState) (f : Fill) (h : f.side = Side.sell) :
    (notify_order e s f).trades = s.trades := by
  rcases f with ⟨t, sd, sz, p, c⟩
  cases sd
  · simp at h
  · simp [notify_order]; split_ifs <;> simp

lemma sell_realized (e : Bool) (s : LedgerState) (f : Fill) (h : f.side = Side.sell) :
    (notify_order e s f).realized_pnl =
      s.realized_pnl + (f.price - s.avg_cost) * min |f.size| s.pos_size := by
  rcases f with ⟨t, sd, sz, p, c⟩
  cases sd
  · simp at h
  · simp [notify_order]; split_ifs <;> simp

lemma sell_comm (e : Bool) (s : LedgerState) (f : Fill) (h : f.side = Side.sell) :
    (notify_order e s f).comm_total = s.comm_total + f.commVal := by
  rcases f with ⟨t, sd, sz, p, c⟩
  cases sd
  · simp at h
  · simp [notify_order]; split_ifs <;> simp

lemma sell_fills (e : Bool) (s : LedgerState) (f : Fill) (h : f.side = Side.sell) :
    (notify_order e s f).fills = s.fills ++
      [{ time := f.time, side := Side.sell, size := -(min |f.size| s.pos_size),
         price := f.price, commission := f.commVal }] := by
  rcases f with ⟨t, sd, sz, p, c⟩
  cases sd
  · simp at h
  · simp [notify_order]; split_ifs <;> simp

/-! ### Per-field characterization lemmas for `notify_order` (BUY branch) -/

lemma buy_pos (e : Bool) (s : LedgerState) (f : Fill) (h : f.side = Side.buy) :
    (notify_order e s f).pos_size = s.pos_size + |f.size| := by
  rcases f with ⟨t, sd, sz, p, c⟩
  cases sd
  · simp [notify_order]; split_ifs <;> simp
  · simp at h

lemma buy_trades (e : Bool) (s : LedgerState) (f : Fill) (h : f.side = Side.buy) :
    (notify_order e s f).trades = s.trades := by
  rcases f with ⟨t, sd, sz, p, c⟩
  cases sd
  · simp [notify_order]; split_ifs <;> simp
  · simp at h

lemma buy_avg (e : Bool) (s : LedgerState) (f : Fill) (h : f.side = Side.buy)
    (hpos : 0 < s.pos_size + |f.size|) :
    (notify_order e s f).avg_cost =
      (s.avg_cost * s.pos_size + f.price * |f.size|) / (s.pos_size + |f.size|) := by
  rcases f with ⟨t, sd, sz, p, c⟩
  cases sd
  · simp [notify_order]
    split_ifs <;> simp_all
  · simp at h

lemma buy_avg_nonpos (e : Bool) (s : LedgerState) (f : Fill) (h : f.side = Side.buy)
    (hpos : ¬ 0 < s.pos_size + |f.size|) :
    (notify_order e s f).avg_cost = s.avg_cost := by
  rcases f with ⟨t, sd, sz, p, c⟩
  cases sd
  · simp [notify_order]
    split_ifs <;> simp_all
  · simp at h

lemma buy_comm_flat (e : Bool) (s : LedgerState) (f : Fill) (h : f.side = Side.buy)
    (hflat : s.pos_size = 0) :
    (notify_order e s f).comm_total = f.commVal := by
  rcases f with ⟨t, sd, sz, p, c⟩
  cases sd
  · simp [notify_order]
    split_ifs <;> simp_all
  · simp at h

lemma buy_comm_nonflat (e : Bool) (s : LedgerState) (f : Fill) (h : f.side = Side.buy)
    (hne : s.pos_size ≠ 0) :
    (notify_order e s f).comm_total = s.comm_total + f.commVal := by
  rcases f with ⟨t, sd, sz, p, c⟩
  cases sd
  · simp [notify_order]
    split_ifs <;> simp_all
  · simp at h

lemma buy_peak_flat (e : Bool) (s : LedgerState) (f : Fill) (h : f.side = Side.buy)
    (hflat : s.pos_size = 0) :
    (notify_order e s f).size_peak = |f.size| := by
  rcases f with ⟨t, sd, sz, p, c⟩
  cases sd
  · have hnn : (0:ℚ) ≤ |sz| := abs_nonneg sz
    simp [notify_order]
    split_ifs <;> simp_all
  · simp at h

lemma buy_peak_nonflat (e : Bool) (s : LedgerState) (f : Fill) (h : f.side = Side.buy)
    (hne : s.pos_size ≠ 0) :
    (notify_order e s f).size_peak = max s.size_peak (s.pos_size + |f.size|) := by
  rcases f with ⟨t, sd, sz, p, c⟩
  cases sd
  · simp [notify_order]
    split_ifs <;> simp_all [max_def] <;> rename_i hlt <;> split_ifs <;> linarith
  · simp at h

lemma buy_realized_flat (e : Bool) (s : LedgerState) (f : Fill) (h : f.side = Side.buy)
    (hflat : s.pos_size = 0) :
    (notify_order e s f).realized_pnl = 0 := by
  rcases f with ⟨t, sd, sz, p, c⟩
  cases sd
  · simp [notify_order]; split_ifs <;> simp_all
  · simp at h

lemma buy_realized_nonflat (e : Bool) (s : LedgerState) (f : Fill) (h : f.side = Side.buy)
    (hne : s.pos_size ≠ 0) :
    (notify_order e s f).realized_pnl = s.realized_pnl := by
  rcases f with ⟨t, sd, sz, p, c⟩
  cases sd
  · simp [notify_order]; split_ifs <;> simp_all
  · simp at h

lemma buy_fet_flat (e : Bool) (s : LedgerState) (f : Fill) (h : f.side = Side.buy)
    (hflat : s.pos_size = 0) :
    (notify_order e s f).first_entry_time = some f.time := by
  rcases f with ⟨t, sd, sz, p, c⟩
  cases sd
  · simp [notify_order]; split_ifs <;> simp_all
  · simp at h

lemma buy_fet_nonflat (e : Bool) (s : LedgerState) (f : Fill) (h : f.side = Side.buy)
    (hne : s.pos_size ≠ 0) :
    (notify_order e s f).first_entry_time = s.first_entry_time := by
  rcases f with ⟨t, sd, sz, p, c⟩
  cases sd
  · simp [notify_order]; split_ifs <;> simp_all
  · simp at h

lemma buy_fills_flat (e : Bool) (s : LedgerState) (f : Fill) (h : f.side = Side.buy)
    (hflat : s.pos_size = 0) :
    (notify_order e s f).fills =
      [{ time := f.time, side := Side.buy, size := f.size,
         price := f.price, commission := f.commVal }] := by
  rcases f with ⟨t, sd, sz, p, c⟩
  cases sd
  · simp [notify_order]; split_ifs <;> simp_all
  · simp at h

lemma buy_fills_nonflat (e : Bool) (s : LedgerState) (f : Fill) (h : f.side = Side.buy)
    (hne : s.pos_size ≠ 0) :
    (notify_order e s f).fills = s.fills ++
      [{ time := f.time, side := Side.buy, size := f.size,
         price := f.price, commission := f.commVal }] := by
  rcases f with ⟨t, sd, sz, p, c⟩
  cases sd
  · simp [notify_order]; split_ifs <;> simp_all
  · simp at h

/-! ### The all-time fill log and `notify_trade` -/

lemma order_fills_log (e : Bool) (s : LedgerState) (f : Fill) :
    (notify_order e s f).fills_log =
      if e then
        s.fills_log ++ [{ time := f.time, side := f.side, size := f.size,
                          price := f.price, commission := f.commVal }]
      else s.fills_log := by
  rcases f with ⟨t, sd, sz, p, c⟩
  cases sd <;> simp [notify_order] <;> split_ifs <;> simp_all

lemma trade_closed (s : LedgerState) (t : TradeEvent) (h : t.isclosed = true) :
    notify_trade s t =
      { s with
        trades := s.trades ++
          [{ entry_time := s.first_entry_time.getD t.dtopen
             exit_time := t.dtclose
             size_peak := s.size_peak
             avg_entry_cost := s.avg_cost
             gross_pnl := t.pnl
             net_pnl := t.pnlcomm.getD t.pnl
             commission := t.commission
             fills_count := s.fills.length }]
        pos_size := 0
        avg_cost := 0
        realized_pnl := 0
        comm_total := 0
        first_entry_time := none
        fills := []
        size_peak := 0 } := by
  simp [notify_trade, h]

lemma trade_open (s : LedgerState) (t : TradeEvent) (h : t.isclosed = false) :
    notify_trade s t = s := by
  simp [notify_trade, h]

/-! ### Invariants preserved by single notifications -/

lemma pos_nonneg_order (e : Bool) (s : LedgerState) (f : Fill)
    (h : 0 ≤ s.pos_size) : 0 ≤ (notify_order e s f).pos_size := by
  cases hsd : f.side
  · rw [buy_pos e s f hsd]
    have := abs_nonneg f.size
    linarith
  · rw [sell_pos e s f hsd]
    have : min |f.size| s.pos_size ≤ s.pos_size := min_le_right _ _
    linarith

lemma pos_nonneg_step (e : Bool) (s : LedgerState) (ev : Event)
    (h : 0 ≤ s.pos_size) : 0 ≤ (step e s ev).pos_size := by
  cases ev with
  | fill f => exact pos_nonneg_order e s f h
  | trade t =>
    cases ht : t.isclosed
    · rw [step, trade_open s t ht]; exact h
    · rw [step, trade_closed s t ht]

lemma pos_nonneg_run (e : Bool) (evs : List Event) :
    ∀ s : LedgerState, 0 ≤ s.pos_size → 0 ≤ (runEvents e s evs).pos_size := by
  induction evs with
  | nil => intro s h; exact h
  | cons ev evs ih =>
    intro s h
    exact ih (step e s ev) (pos_nonneg_step e s ev h)

lemma peak_ge_pos_order (e : Bool) (s : LedgerState) (f : Fill)
    (h0 : 0 ≤ s.pos_size) (h1 : s.pos_size ≤ s.size_peak) :
    (notify_order e s f).pos_size ≤ (notify_order e s f).size_peak := by
  cases hsd : f.side
  · rcases eq_or_lt_of_le h0 with hflat | hpos
    · rw [buy_pos e s f hsd, buy_peak_flat e s f hsd hflat.symm, ← hflat]
      simp
    · rw [buy_pos e s f hsd, buy_peak_nonflat e s f hsd (ne_of_gt hpos)]
      exact le_max_right _ _
  · rw [sell_pos e s f hsd, sell_peak e s f hsd]
    have hmin : 0 ≤ min |f.size| s.pos_size := le_min (abs_nonneg _) h0
    linarith

/-! ### Volume-weighted average cost over a run of BUY fills -/

lemma sumQty_nil : sumQty [] = 0 := rfl

lemma sumQty_cons (f : Fill) (fs : List Fill) :
    sumQty (f :: fs) = f.size + sumQty fs := by simp [sumQty]

lemma sumPQ_nil : sumPQ [] = 0 := rfl

lemma sumPQ_cons (f : Fill) (fs : List Fill) :
    sumPQ (f :: fs) = f.price * f.size + sumPQ fs := by simp [sumPQ]

lemma sumQty_nonneg (fs : List Fill) (h : ∀ f ∈ fs, 0 < f.size) :
    0 ≤ sumQty fs := by
  induction fs with
  | nil => simp [sumQty_nil]
  | cons f fs ih =>
    rw [sumQty_cons]
    have h1 : 0 < f.size := h f (by simp)
    have h2 : 0 ≤ sumQty fs := ih (fun g hg => h g (by simp [hg]))
    linarith

/-- Processing a run of positive BUY fills from a non-flat state reweights
the running average by each fill's price and quantity, and accumulates the
quantities into the position size. -/
lemma buy_run_vwap (e : Bool) (fs : List Fill) :
    ∀ s : LedgerState, 0 < s.pos_size →
    (∀ f ∈ fs, f.side = Side.buy ∧ 0 < f.size) →
    (runFills e s fs).avg_cost =
      (s.avg_cost * s.pos_size + sumPQ fs) / (s.pos_size + sumQty fs) ∧
    (runFills e s fs).pos_size = s.pos_size + sumQty fs := by
  induction fs with
  | nil =>
    intro s hpos _
    have hQ : s.pos_size ≠ 0 := ne_of_gt hpos
    constructor
    · rw [runFills]
      simp [sumPQ_nil, sumQty_nil, mul_div_assoc]
      rw [div_self hQ, mul_one]
    · simp [runFills, sumQty_nil]
  | cons f fs ih =>
    intro s hpos hall
    obtain ⟨hbuy, hq⟩ := hall f (by simp)
    have habs : |f.size| = f.size := abs_of_pos hq
    have hrest : ∀ g ∈ fs, g.side = Side.buy ∧ 0 < g.size :=
      fun g hg => hall g (by simp [hg])
    have hnews : (0:ℚ) < s.pos_size + |f.size| := by
      have := abs_nonneg f.size; linarith
    have hpos' : (notify_order e s f).pos_size = s.pos_size + f.size := by
      rw [buy_pos e s f hbuy, habs]
    have havg' : (notify_order e s f).avg_cost =
        (s.avg_cost * s.pos_size + f.price * f.size) / (s.pos_size + f.size) := by
      rw [buy_avg e s f hbuy hnews, habs]
    have hpos'' : 0 < (notify_order e s f).pos_size := by rw [hpos']; linarith
    have hrun : runFills e s (f :: fs) = runFills e (notify_order e s f) fs := rfl
    obtain ⟨iha, ihp⟩ := ih (notify_order e s f) hpos'' hrest
    have hden : s.pos_size + f.size ≠ 0 := by linarith
    constructor
    · rw [hrun, iha, havg', hpos', div_mul_cancel₀ _ hden, sumPQ_cons, sumQty_cons]
      ring_nf
    · rw [hrun, ihp, hpos', sumQty_cons]
      ring

/-! ### Claim theorems -/

/-- Claim C1: for every sequence of BUY fills (each with positive quantity)
processed by `notify_order` since the position last opened from flat, with
no intervening full close, the ledger's `_avg_cost` equals the
volume-weighted mean of those BUY fills' prices, weighted by their
quantities. -/
theorem avg_cost_is_vwap_of_buys (e : Bool) (s : LedgerState) (fs : List Fill)
    (hflat : s.pos_size = 0) (hne : fs ≠ [])
    (hbuy : ∀ f ∈ fs, f.side = Side.buy ∧ 0 < f.size) :
    (runFills e s fs).avg_cost = sumPQ fs / sumQty fs := by
  match fs with
  | [] => exact absurd rfl hne
  | f :: fs =>
    obtain ⟨hb, hq⟩ := hbuy f (by simp)
    have habs : |f.size| = f.size := abs_of_pos hq
    have hrest : ∀ g ∈ fs, g.side = Side.buy ∧ 0 < g.size :=
      fun g hg => hbuy g (by simp [hg])
    have hnews : (0:ℚ) < s.pos_size + |f.size| := by
      rw [hflat, habs]; simpa using hq
    have hqne : f.size ≠ 0 := ne_of_gt hq
    have hs1pos : (notify_order e s f).pos_size = f.size := by
      rw [buy_pos e s f hb, habs, hflat, zero_add]
    have hs1avg : (notify_order e s f).avg_cost = f.price := by
      rw [buy_avg e s f hb hnews, habs, hflat]
      rw [mul_zero, zero_add, zero_add, mul_div_assoc, div_self hqne, mul_one]
    have hpos1 : 0 < (notify_order e s f).pos_size := by rw [hs1pos]; exact hq
    obtain ⟨iha, _⟩ := buy_run_vwap e fs (notify_order e s f) hpos1 hrest
    have hrun : runFills e s (f :: fs) = runFills e (notify_order e s f) fs := rfl
    rw [hrun, iha, hs1pos, hs1avg, sumPQ_cons, sumQty_cons]

/-- Witness for C1: two BUY fills, 50 @ 10 then 50 @ 12, from the initial
flat ledger, give average cost `(10*50 + 12*50) / 100 = 11`. -/
theorem avg_cost_is_vwap_of_buys_witness :
    (runFills true initState
      [{ time := 1, side := Side.buy, size := 50, price := 10, comm := none },
       { time := 2, side := Side.buy, size := 50, price := 12, comm := none }]).avg_cost
      = 11 := by
  rw [avg_cost_is_vwap_of_buys true initState
      [{ time := 1, side := Side.buy, size := 50, price := 10, comm := none },
       { time := 2, side := Side.buy, size := 50, price := 12, comm := none }]
      rfl (by simp) (by norm_num)]
  norm_num [sumPQ, sumQty]

/-- Claim C2: from the flat initial state, the fill sequence
BUY 50 @ 10, BUY 50 @ 12, SELL 60 @ 13, SELL 40 @ 14 leaves
`_realized_pnl = 240`, `_size_peak = 100`, four records in `_fills`,
and `_avg_cost = 11` already after the two BUYs. -/
theorem scenario_b_scale_in_out :
    (runFills true initState
      [{ time := 1, side := Side.buy, size := 50, price := 10, comm := none },
       { time := 2, side := Side.buy, size := 50, price := 12, comm := none }]).avg_cost
      = 11 ∧
    (runFills true initState
      [{ time := 1, side := Side.buy, size := 50, price := 10, comm := none },
       { time := 2, side := Side.buy, size := 50, price := 12, comm := none },
       { time := 3, side := Side.sell, size := -60, price := 13, comm := none },
       { time := 4, side := Side.sell, size := -40, price := 14, comm := none }]).realized_pnl
      = 240 ∧
    (runFills true initState
      [{ time := 1, side := Side.buy, size := 50, price := 10, comm := none },
       { time := 2, side := Side.buy, size := 50, price := 12, comm := none },
       { time := 3, side := Side.sell, size := -60, price := 13, comm := none },
       { time := 4, side := Side.sell, size := -40, price := 14, comm := none }]).size_peak
      = 100 ∧
    (runFills true initState
      [{ time := 1, side := Side.buy, size := 50, price := 10, comm := none },
       { time := 2, side := Side.buy, size := 50, price := 12, comm := none },
       { time := 3, side := Side.sell, size := -60, price := 13, comm := none },
       { time := 4, side := Side.sell, size := -40, price := 14, comm := none }]).fills.length
      = 4 := by
  refine ⟨?_, ?_, ?_, ?_⟩ <;>
    norm_num [runFills, notify_order, initState, Fill.commVal]

/-- Claim C3: a BUY fill processed while the ledger is flat leaves
`_comm_total` equal to exactly that fill's commission: the line
`self._comm_total += fill_comm` runs first, and the flat-entry reset then
assigns `self._comm_total = fill_comm`, so the opening commission is
counted exactly once. -/
theorem flat_entry_buy_commission (e : Bool) (s : LedgerState) (f : Fill)
    (hbuy : f.side = Side.buy) (hflat : s.pos_size = 0) :
    (notify_order e s f).comm_total = f.commVal :=
  buy_comm_flat e s f hbuy hflat

/-- Witness for C3: a BUY of 10 @ 5 with commission 2 on the initial flat
ledger leaves `_comm_total = 2`. -/
theorem flat_entry_buy_commission_witness :
    (notify_order true initState
      { time := 1, side := Side.buy, size := 10, price := 5, comm := some 2 }).comm_total
      = 2 :=
  flat_entry_buy_commission true initState
    { time := 1, side := Side.buy, size := 10, price := 5, comm := some 2 } rfl rfl

/-- Helper for C4: processing notifications preserves the property that
every recorded trade has `net_pnl = gross_pnl - commission`, provided every
trade-closed notification carries `pnlcomm = pnl - commission` (the
engine's contract for closed trades). -/
lemma trades_conform_run (e : Bool) (evs : List Event) :
    ∀ s : LedgerState,
    (∀ r ∈ s.trades, r.net_pnl = r.gross_pnl - r.commission) →
    (∀ ev ∈ evs, ∀ t : TradeEvent, ev = Event.trade t →
        t.pnlcomm = some (t.pnl - t.commission)) →
    ∀ r ∈ (runEvents e s evs).trades, r.net_pnl = r.gross_pnl - r.commission := by
  induction evs with
  | nil => intro s hs _; exact hs
  | cons ev evs ih =>
    intro s hs hengine
    have hrest : ∀ ev' ∈ evs, ∀ t : TradeEvent, ev' = Event.trade t →
        t.pnlcomm = some (t.pnl - t.commission) :=
      fun ev' hev' t ht => hengine ev' (by simp [hev']) t ht
    refine ih (step e s ev) ?_ hrest
    cases ev with
    | fill f =>
      intro r hr
      cases hsd : f.side
      · rw [step, buy_trades e s f hsd] at hr; exact hs r hr
      · rw [step, sell_trades e s f hsd] at hr; exact hs r hr
    | trade t =>
      have hct : t.pnlcomm = some (t.pnl - t.commission) :=
        hengine (Event.trade t) (by simp) t rfl
      intro r hr
      cases hcl : t.isclosed
      · rw [step, trade_open s t hcl] at hr; exact hs r hr
      · rw [step, trade_closed s t hcl] at hr
        simp at hr
        rcases hr with hr | hr
        · exact hs r hr
        · rw [hr, hct]; simp

/-- Claim C4: every trade summary appended by `notify_trade` satisfies
`net_pnl = gross_pnl - commission` exactly, given the engine's contract
that every closed-trade notification carries
`trade.pnlcomm = trade.pnl - trade.commission` (the ledger copies the
engine's figures rather than recomputing them). -/
theorem net_pnl_eq_gross_minus_commission (e : Bool) (evs : List Event)
    (r : TradeSummary)
    (hengine : ∀ ev ∈ evs, ∀ t : TradeEvent, ev = Event.trade t →
        t.pnlcomm = some (t.pnl - t.commission))
    (hr : r ∈ (runEvents e initState evs).trades) :
    r.net_pnl = r.gross_pnl - r.commission :=
  trades_conform_run e evs initState (by simp [initState]) hengine r hr

/-- Witness for C4: one closed-trade notification with `pnl = 100`,
`commission = 21/10`, `pnlcomm = 979/10` yields a recorded trade with
`net_pnl = gross_pnl - commission`. -/
theorem net_pnl_eq_gross_minus_commission_witness :
    ({ entry_time := 0, exit_time := 5, size_peak := 0, avg_entry_cost := 0,
       gross_pnl := 100, net_pnl := 979/10, commission := 21/10,
       fills_count := 0 } : TradeSummary).net_pnl
      = ({ entry_time := 0, exit_time := 5, size_peak := 0, avg_entry_cost := 0,
           gross_pnl := 100, net_pnl := 979/10, commission := 21/10,
           fills_count := 0 } : TradeSummary).gross_pnl
        - ({ entry_time := 0, exit_time := 5, size_peak := 0, avg_entry_cost := 0,
             gross_pnl := 100, net_pnl := 979/10, commission := 21/10,
             fills_count := 0 } : TradeSummary).commission :=
  net_pnl_eq_gross_minus_commission true
    [Event.trade { isclosed := true, dtopen := 0, dtclose := 5, pnl := 100,
                   pnlcomm := some (979/10), commission := 21/10 }]
    { entry_time := 0, exit_time := 5, size_peak := 0, avg_entry_cost := 0,
      gross_pnl := 100, net_pnl := 979/10, commission := 21/10, fills_count := 0 }
    (by intro ev hev t ht
        simp at hev
        rw [hev] at ht
        rw [show t = { isclosed := true, dtopen := 0, dtclose := 5, pnl := 100,
                       pnlcomm := some (979/10), commission := 21/10 } from
              (Event.trade.injEq _ _).mp ht.symm]
        norm_num)
    (by norm_num [runEvents, step, notify_trade, initState])

/-- Counterexample for C5: the fill with `price = 0 ≤ 0` and
`commission = -1 < 0` is not rejected: `notify_order` processes it and
mutates the ledger (the invalid commission lands in `_comm_total`, the
fill is recorded), so no validation error path exists. -/
theorem invalid_fill_not_rejected :
    ({ time := 1, side := Side.buy, size := 10, price := 0,
       comm := some (-1) } : Fill).price ≤ 0 ∧
    ({ time := 1, side := Side.buy, size := 10, price := 0,
       comm := some (-1) } : Fill).commVal < 0 ∧
    (notify_order true initState
      { time := 1, side := Side.buy, size := 10, price := 0,
        comm := some (-1) }).comm_total = -1 ∧
    initState.comm_total = 0 ∧
    (notify_order true initState
      { time := 1, side := Side.buy, size := 10, price := 0,
        comm := some (-1) }).fills.length = 1 ∧
    initState.fills.length = 0 := by
  norm_num [notify_order, initState, Fill.commVal]

/-- Claim C5 as amended: `notify_order` performs no validation; a fill
with `price ≤ 0` or `commission < 0` is processed by the normal BUY/SELL
path like any other fill — in particular a record carrying the invalid
price and commission is appended to `_fills`. -/
theorem invalid_fill_processed (e : Bool) (s : LedgerState) (f : Fill)
    (hbad : f.price ≤ 0 ∨ f.commVal < 0) :
    ((notify_order e s f).fills.getLast?).map (fun r => r.price) = some f.price ∧
    ((notify_order e s f).fills.getLast?).map (fun r => r.commission)
      = some f.commVal := by
  cases hsd : f.side
  · rcases eq_or_ne s.pos_size 0 with hflat | hne
    · rw [buy_fills_flat e s f hsd hflat]; simp
    · rw [buy_fills_nonflat e s f hsd hne]; simp
  · rw [sell_fills e s f hsd]; simp

/-- Witness for C5 (amended): the invalid fill of the counterexample is
recorded with its own price `0` and commission `-1`. -/
theorem invalid_fill_processed_witness :
    ((notify_order true initState
        { time := 1, side := Side.buy, size := 10, price := 0,
          comm := some (-1) }).fills.getLast?).map (fun r => r.price)
      = some 0 ∧
    ((notify_order true initState
        { time := 1, side := Side.buy, size := 10, price := 0,
          comm := some (-1) }).fills.getLast?).map (fun r => r.commission)
      = some (-1) :=
  invalid_fill_processed true initState
    { time := 1, side := Side.buy, size := 10, price := 0, comm := some (-1) }
    (Or.inl (le_refl 0))

/-- Claim C6: starting from the flat initial state, `_pos_size ≥ 0` holds
after every sequence of notifications (long-only), and a SELL fill reduces
the position by `min |size| _pos_size`: overselling is clamped, never
taking the position net negative. -/
theorem long_only_never_negative (e : Bool) (evs : List Event) (f : Fill)
    (hsell : f.side = Side.sell) :
    0 ≤ (runEvents e initState evs).pos_size ∧
    (notify_order e (runEvents e initState evs) f).pos_size
      = (runEvents e initState evs).pos_size
        - min |f.size| (runEvents e initState evs).pos_size :=
  ⟨pos_nonneg_run e evs initState (le_refl 0),
   sell_pos e (runEvents e initState evs) f hsell⟩

/-- Witness for C6: after a BUY of 10, a SELL of 25 clamps to the held 10
and leaves the position at 0, not negative. -/
theorem long_only_never_negative_witness :
    0 ≤ (runEvents true initState
      [Event.fill { time := 1, side := Side.buy, size := 10, price := 5,
                    comm := none }]).pos_size ∧
    (notify_order true
      (runEvents true initState
        [Event.fill { time := 1, side := Side.buy, size := 10, price := 5,
                      comm := none }])
      { time := 2, side := Side.sell, size := -25, price := 6,
        comm := none }).pos_size
      = (runEvents true initState
          [Event.fill { time := 1, side := Side.buy, size := 10, price := 5,
                        comm := none }]).pos_size
        - min |({ time := 2, side := Side.sell, size := -25, price := 6,
                  comm := none } : Fill).size|
            (runEvents true initState
              [Event.fill { time := 1, side := Side.buy, size := 10, price := 5,
                            comm := none }]).pos_size :=
  long_only_never_negative true
    [Event.fill { time := 1, side := Side.buy, size := 10, price := 5, comm := none }]
    { time := 2, side := Side.sell, size := -25, price := 6, comm := none } rfl

/-! ### Position-scoped fields and the closure reset -/

/-- The fill handler reads and writes only the per-position attributes (the
two append-only logs aside), so two ledgers agreeing on those attributes
still agree on them after processing the same fill. -/
lemma posFields_order_congr (e : Bool) (s1 s2 : LedgerState) (f : Fill)
    (h : posFields s1 = posFields s2) :
    posFields (notify_order e s1 f) = posFields (notify_order e s2 f) := by
  have h' := h
  simp only [posFields, Prod.mk.injEq] at h'
  obtain ⟨hpos, havg, hreal, hcomm, hfet, hfills, hpeak⟩ := h'
  cases hsd : f.side
  · rcases eq_or_ne s1.pos_size 0 with hflat | hne
    · have hflat2 : s2.pos_size = 0 := by rw [← hpos]; exact hflat
      have hg : (0:ℚ) < s1.pos_size + |f.size| ↔ 0 < s2.pos_size + |f.size| := by
        rw [hpos]
      simp only [posFields, Prod.mk.injEq]
      refine ⟨?_, ?_, ?_, ?_, ?_, ?_, ?_⟩
      · rw [buy_pos e s1 f hsd, buy_pos e s2 f hsd, hpos]
      · rcases lt_or_ge 0 (s1.pos_size + |f.size|) with hlt | hge
        · rw [buy_avg e s1 f hsd hlt, buy_avg e s2 f hsd (hg.mp hlt), hpos, havg]
        · rw [buy_avg_nonpos e s1 f hsd (not_lt.mpr hge),
              buy_avg_nonpos e s2 f hsd (not_lt.mpr (hpos ▸ hge)), havg]
      · rw [buy_realized_flat e s1 f hsd hflat, buy_realized_flat e s2 f hsd hflat2]
      · rw [buy_comm_flat e s1 f hsd hflat, buy_comm_flat e s2 f hsd hflat2]
      · rw [buy_fet_flat e s1 f hsd hflat, buy_fet_flat e s2 f hsd hflat2]
      · rw [buy_fills_flat e s1 f hsd hflat, buy_fills_flat e s2 f hsd hflat2]
      · rw [buy_peak_flat e s1 f hsd hflat, buy_peak_flat e s2 f hsd hflat2]
    · have hne2 : s2.pos_size ≠ 0 := by rw [← hpos]; exact hne
      simp only [posFields, Prod.mk.injEq]
      refine ⟨?_, ?_, ?_, ?_, ?_, ?_, ?_⟩
      · rw [buy_pos e s1 f hsd, buy_pos e s2 f hsd, hpos]
      · rcases lt_or_ge 0 (s1.pos_size + |f.size|) with hlt | hge
        · rw [buy_avg e s1 f hsd hlt, buy_avg e s2 f hsd (by rw [← hpos]; exact hlt),
              hpos, havg]
        · rw [buy_avg_nonpos e s1 f hsd (not_lt.mpr hge),
              buy_avg_nonpos e s2 f hsd (not_lt.mpr (hpos ▸ hge)), havg]
      · rw [buy_realized_nonflat e s1 f hsd hne, buy_realized_nonflat e s2 f hsd hne2,
            hreal]
      · rw [buy_comm_nonflat e s1 f hsd hne, buy_comm_nonflat e s2 f hsd hne2, hcomm]
      · rw [buy_fet_nonflat e s1 f hsd hne, buy_fet_nonflat e s2 f hsd hne2, hfet]
      · rw [buy_fills_nonflat e s1 f hsd hne, buy_fills_nonflat e s2 f hsd hne2, hfills]
      · rw [buy_peak_nonflat e s1 f hsd hne, buy_peak_nonflat e s2 f hsd hne2,
            hpeak, hpos]
  · simp only [posFields, Prod.mk.injEq]
    refine ⟨?_, ?_, ?_, ?_, ?_, ?_, ?_⟩
    · rw [sell_pos e s1 f hsd, sell_pos e s2 f hsd, hpos]
    · rw [sell_avg e s1 f hsd, sell_avg e s2 f hsd, havg]
    · rw [sell_realized e s1 f hsd, sell_realized e s2 f hsd, hreal, havg, hpos]
    · rw [sell_comm e s1 f hsd, sell_comm e s2 f hsd, hcomm]
    · rw [sell_fet e s1 f hsd, sell_fet e s2 f hsd, hfet]
    · rw [sell_fills e s1 f hsd, sell_fills e s2 f hsd, hfills, hpos]
    · rw [sell_peak e s1 f hsd, sell_peak e s2 f hsd, hpeak]

/-- Claim C8: after `notify_trade` handles a closed trade, every
per-position attribute equals the FLAT default of `__init__`
(`_pos_size = 0`, `_avg_cost = 0`, `_realized_pnl = 0`, `_comm_total = 0`,
`_first_entry_time = None`, `_fills = []`, `_size_peak = 0`), and hence a
subsequent fill yields the same per-position attributes as it would on a
fresh ledger: the new position is uncontaminated by the
prior one's accumulators. -/
theorem closure_resets_to_flat (e : Bool) (s : LedgerState) (t : TradeEvent)
    (f : Fill) (ht : t.isclosed = true) :
    (notify_trade s t).pos_size = 0 ∧
    (notify_trade s t).avg_cost = 0 ∧
    (notify_trade s t).realized_pnl = 0 ∧
    (notify_trade s t).comm_total = 0 ∧
    (notify_trade s t).first_entry_time = none ∧
    (notify_trade s t).fills = [] ∧
    (notify_trade s t).size_peak = 0 ∧
    posFields (notify_order e (notify_trade s t) f)
      = posFields (notify_order e initState f) := by
  have h1 : posFields (notify_trade s t) = posFields initState := by
    rw [trade_closed s t ht]
    simp [posFields, initState]
  have h2 := posFields_order_congr e (notify_trade s t) initState f h1
  refine ⟨?_, ?_, ?_, ?_, ?_, ?_, ?_, h2⟩ <;> rw [trade_closed s t ht]

/-- Witness for C8: closing a position built by one BUY resets every
per-position attribute, and a subsequent BUY behaves as on a fresh ledger. -/
theorem closure_resets_to_flat_witness :
    (notify_trade
      (notify_order true initState
        { time := 1, side := Side.buy, size := 10, price := 5, comm := some 1 })
      { isclosed := true, dtopen := 1, dtclose := 3, pnl := 7,
        pnlcomm := some 6, commission := 1 }).pos_size = 0 ∧
    (notify_trade
      (notify_order true initState
        { time := 1, side := Side.buy, size := 10, price := 5, comm := some 1 })
      { isclosed := true, dtopen := 1, dtclose := 3, pnl := 7,
        pnlcomm := some 6, commission := 1 }).avg_cost = 0 ∧
    (notify_trade
      (notify_order true initState
        { time := 1, side := Side.buy, size := 10, price := 5, comm := some 1 })
      { isclosed := true, dtopen := 1, dtclose := 3, pnl := 7,
        pnlcomm := some 6, commission := 1 }).realized_pnl = 0 ∧
    (notify_trade
      (notify_order true initState
        { time := 1, side := Side.buy, size := 10, price := 5, comm := some 1 })
      { isclosed := true, dtopen := 1, dtclose := 3, pnl := 7,
        pnlcomm := some 6, commission := 1 }).comm_total = 0 ∧
    (notify_trade
      (notify_order true initState
        { time := 1, side := Side.buy, size := 10, price := 5, comm := some 1 })
      { isclosed := true, dtopen := 1, dtclose := 3, pnl := 7,
        pnlcomm := some 6, commission := 1 }).first_entry_time = none ∧
    (notify_trade
      (notify_order true initState
        { time := 1, side := Side.buy, size := 10, price := 5, comm := some 1 })
      { isclosed := true, dtopen := 1, dtclose := 3, pnl := 7,
        pnlcomm := some 6, commission := 1 }).fills = [] ∧
    (notify_trade
      (notify_order true initState
        { time := 1, side := Side.buy, size := 10, price := 5, comm := some 1 })
      { isclosed := true, dtopen := 1, dtclose := 3, pnl := 7,
        pnlcomm := some 6, commission := 1 }).size_peak = 0 ∧
    posFields (notify_order true
      (notify_trade
        (notify_order true initState
          { time := 1, side := Side.buy, size := 10, price := 5, comm := some 1 })
        { isclosed := true, dtopen := 1, dtclose := 3, pnl := 7,
          pnlcomm := some 6, commission := 1 })
      { time := 4, side := Side.buy, size := 20, price := 8, comm := some 2 })
      = posFields (notify_order true initState
          { time := 4, side := Side.buy, size := 20, price := 8, comm := some 2 }) :=
  closure_resets_to_flat true
    (notify_order true initState
      { time := 1, side := Side.buy, size := 10, price := 5, comm := some 1 })
    { isclosed := true, dtopen := 1, dtclose := 3, pnl := 7,
      pnlcomm := some 6, commission := 1 }
    { time := 4, side := Side.buy, size := 20, price := 8, comm := some 2 } rfl

/-- Claim C9: a SELL fill never changes `_avg_cost`; it also leaves
`_first_entry_time`, `_size_peak` and the trade log untouched — only the
position size, realized PnL, commission total and the fill logs move. -/
theorem sell_preserves_avg_cost (e : Bool) (s : LedgerState) (f : Fill)
    (hsell : f.side = Side.sell) :
    (notify_order e s f).avg_cost = s.avg_cost ∧
    (notify_order e s f).first_entry_time = s.first_entry_time ∧
    (notify_order e s f).size_peak = s.size_peak ∧
    (notify_order e s f).trades = s.trades :=
  ⟨sell_avg e s f hsell, sell_fet e s f hsell,
   sell_peak e s f hsell, sell_trades e s f hsell⟩

/-- Witness for C9: a SELL of 60 @ 13 on the ledger holding 100 @ 11
leaves the average cost (and entry time, peak, trade log) unchanged. -/
theorem sell_preserves_avg_cost_witness :
    (notify_order true
      (runFills true initState
        [{ time := 1, side := Side.buy, size := 50, price := 10, comm := none },
         { time := 2, side := Side.buy, size := 50, price := 12, comm := none }])
      { time := 3, side := Side.sell, size := -60, price := 13, comm := none }).avg_cost
      = (runFills true initState
          [{ time := 1, side := Side.buy, size := 50, price := 10, comm := none },
           { time := 2, side := Side.buy, size := 50, price := 12, comm := none }]).avg_cost ∧
    (notify_order true
      (runFills true initState
        [{ time := 1, side := Side.buy, size := 50, price := 10, comm := none },
         { time := 2, side := Side.buy, size := 50, price := 12, comm := none }])
      { time := 3, side := Side.sell, size := -60, price := 13, comm := none }).first_entry_time
      = (runFills true initState
          [{ time := 1, side := Side.buy, size := 50, price := 10, comm := none },
           { time := 2, side := Side.buy, size := 50, price := 12, comm := none }]).first_entry_time ∧
    (notify_order true
      (runFills true initState
        [{ time := 1, side := Side.buy, size := 50, price := 10, comm := none },
         { time := 2, side := Side.buy, size := 50, price := 12, comm := none }])
      { time := 3, side := Side.sell, size := -60, price := 13, comm := none }).size_peak
      = (runFills true initState
          [{ time := 1, side := Side.buy, size := 50, price := 10, comm := none },
           { time := 2, side := Side.buy, size := 50, price := 12, comm := none }]).size_peak ∧
    (notify_order true
      (runFills true initState
        [{ time := 1, side := Side.buy, size := 50, price := 10, comm := none },
         { time := 2, side := Side.buy, size := 50, price := 12, comm := none }])
      { time := 3, side := Side.sell, size := -60, price := 13, comm := none }).trades
      = (runFills true initState
          [{ time := 1, side := Side.buy, size := 50, price := 10, comm := none },
           { time := 2, side := Side.buy, size := 50, price := 12, comm := none }]).trades :=
  sell_preserves_avg_cost true
    (runFills true initState
      [{ time := 1, side := Side.buy, size := 50, price := 10, comm := none },
       { time := 2, side := Side.buy, size := 50, price := 12, comm := none }])
    { time := 3, side := Side.sell, size := -60, price := 13, comm := none } rfl

/-- Claim C10: a SELL fill arriving while the ledger is flat is not a
complete no-op.  The sold quantity clamps to `min |size| 0 = 0`, so
`_pos_size`, `_avg_cost` and `_realized_pnl` are unchanged, but the fill's
commission still accumulates into `_comm_total`, a record of size
`-0.0` (= 0 over ℚ) is still appended to `_fills`, and with fill export on
the raw executed size goes to `fills_log`; the two logs therefore disagree
on the recorded size whenever the raw size is nonzero. -/
theorem flat_sell_not_noop (e : Bool) (s : LedgerState) (f : Fill)
    (hsell : f.side = Side.sell) (hflat : s.pos_size = 0) :
    (notify_order e s f).pos_size = s.pos_size ∧
    (notify_order e s f).avg_cost = s.avg_cost ∧
    (notify_order e s f).realized_pnl = s.realized_pnl ∧
    (notify_order e s f).comm_total = s.comm_total + f.commVal ∧
    (notify_order e s f).fills = s.fills ++
      [{ time := f.time, side := Side.sell, size := 0, price := f.price,
         commission := f.commVal }] ∧
    (notify_order true s f).fills_log = s.fills_log ++
      [{ time := f.time, side := Side.sell, size := f.size, price := f.price,
         commission := f.commVal }] ∧
    (f.size ≠ 0 →
      ((notify_order true s f).fills.getLast?).map (fun r => r.size)
        ≠ ((notify_order true s f).fills_log.getLast?).map (fun r => r.size)) := by
  have hmin : min |f.size| s.pos_size = 0 := by
    rw [hflat]; exact min_eq_right (abs_nonneg f.size)
  refine ⟨?_, sell_avg e s f hsell, ?_, sell_comm e s f hsell, ?_, ?_, ?_⟩
  · rw [sell_pos e s f hsell, hmin, sub_zero]
  · rw [sell_realized e s f hsell, hmin, mul_zero, add_zero]
  · rw [sell_fills e s f hsell, hmin, neg_zero]
  · rw [order_fills_log true s f, if_pos rfl, hsell]
  · intro hsz
    rw [sell_fills true s f hsell, hmin, neg_zero,
        order_fills_log true s f, if_pos rfl, hsell,
        List.getLast?_concat, List.getLast?_concat]
    simpa using fun hc => hsz hc.symm

/-- Witness for C10: a SELL of raw size -25 at price 6 with commission 3
on the flat initial ledger: position, average cost and realized PnL stay
0, the commission is accumulated, a size-0 record joins `_fills`, and the
all-time log records the raw size -25, disagreeing with `_fills`. -/
theorem flat_sell_not_noop_witness :
    (notify_order true initState
      { time := 2, side := Side.sell, size := -25, price := 6,
        comm := some 3 }).pos_size = initState.pos_size ∧
    (notify_order true initState
      { time := 2, side := Side.sell, size := -25, price := 6,
        comm := some 3 }).avg_cost = initState.avg_cost ∧
    (notify_order true initState
      { time := 2, side := Side.sell, size := -25, price := 6,
        comm := some 3 }).realized_pnl = initState.realized_pnl ∧
    (notify_order true initState
      { time := 2, side := Side.sell, size := -25, price := 6,
        comm := some 3 }).comm_total
      = initState.comm_total
        + ({ time := 2, side := Side.sell, size := -25, price := 6,
             comm := some 3 } : Fill).commVal ∧
    (notify_order true initState
      { time := 2, side := Side.sell, size := -25, price := 6,
        comm := some 3 }).fills = initState.fills ++
      [{ time := 2, side := Side.sell, size := 0, price := 6,
         commission := ({ time := 2, side := Side.sell, size := -25, price := 6,
                          comm := some 3 } : Fill).commVal }] ∧
    (notify_order true initState
      { time := 2, side := Side.sell, size := -25, price := 6,
        comm := some 3 }).fills_log = initState.fills_log ++
      [{ time := 2, side := Side.sell, size := -25, price := 6,
         commission := ({ time := 2, side := Side.sell, size := -25, price := 6,
                          comm := some 3 } : Fill).commVal }] ∧
    (((-25:ℚ) ≠ 0) →
      ((notify_order true initState
          { time := 2, side := Side.sell, size := -25, price := 6,
            comm := some 3 }).fills.getLast?).map (fun r => r.size)
        ≠ ((notify_order true initState
            { time := 2, side := Side.sell, size := -25, price := 6,
              comm := some 3 }).fills_log.getLast?).map (fun r => r.size)) :=
  flat_sell_not_noop true initState
    { time := 2, side := Side.sell, size := -25, price := 6, comm := some 3 }
    rfl rfl

/-! ### Peak size within one position's life -/

lemma runFills_cons (e : Bool) (s : LedgerState) (f : Fill) (fs : List Fill) :
    runFills e s (f :: fs) = runFills e (notify_order e s f) fs := rfl

lemma runFills_append (e : Bool) (l1 l2 : List Fill) (s : LedgerState) :
    runFills e s (l1 ++ l2) = runFills e (runFills e s l1) l2 := by
  simp [runFills, List.foldl_append]

lemma inv_run (e : Bool) (fs : List Fill) :
    ∀ s : LedgerState, 0 ≤ s.pos_size → s.pos_size ≤ s.size_peak →
    0 ≤ (runFills e s fs).pos_size ∧
    (runFills e s fs).pos_size ≤ (runFills e s fs).size_peak := by
  induction fs with
  | nil => intro s h0 h1; exact ⟨h0, h1⟩
  | cons f fs ih =>
    intro s h0 h1
    exact ih (notify_order e s f) (pos_nonneg_order e s f h0)
      (peak_ge_pos_order e s f h0 h1)

/-- While the position is non-flat, a fill updates the peak to the maximum
of the old peak and the new position size. -/
lemma order_peak_max (e : Bool) (s : LedgerState) (f : Fill)
    (h0 : 0 ≤ s.pos_size) (h1 : s.pos_size ≤ s.size_peak)
    (hne : s.pos_size ≠ 0) :
    (notify_order e s f).size_peak
      = max s.size_peak (notify_order e s f).pos_size := by
  cases hsd : f.side
  · rw [buy_peak_nonflat e s f hsd hne, buy_pos e s f hsd]
  · rw [sell_peak e s f hsd, sell_pos e s f hsd]
    have hmin : 0 ≤ min |f.size| s.pos_size := le_min (abs_nonneg _) h0
    have hle : s.pos_size - min |f.size| s.pos_size ≤ s.size_peak := by linarith
    exact (max_eq_left hle).symm

/-- Running over fills from a non-flat state with no mid-sequence return
to flat folds each observed position size into the peak with `max`, and
never decreases the peak. -/
lemma peak_run (e : Bool) (fs : List Fill) :
    ∀ s : LedgerState, 0 ≤ s.pos_size → s.pos_size ≤ s.size_peak →
    s.pos_size ≠ 0 → noMidFlat e s fs = true →
    (runFills e s fs).size_peak = (posTrace e s fs).foldl max s.size_peak ∧
    s.size_peak ≤ (runFills e s fs).size_peak := by
  induction fs with
  | nil => intro s _ _ _ _; exact ⟨rfl, le_refl _⟩
  | cons f fs ih =>
    intro s h0 h1 hne hmf
    simp only [noMidFlat, Bool.and_eq_true, Bool.or_eq_true,
      decide_eq_true_eq] at hmf
    obtain ⟨hm1, hm2⟩ := hmf
    have hpk := order_peak_max e s f h0 h1 hne
    have h0' := pos_nonneg_order e s f h0
    have h1' := peak_ge_pos_order e s f h0 h1
    cases fs with
    | nil =>
      refine ⟨?_, ?_⟩
      · rw [runFills_cons]
        simp [posTrace, runFills, hpk]
      · rw [runFills_cons]
        simp only [runFills, List.foldl_nil]
        rw [hpk]
        exact le_max_left _ _
    | cons g gs =>
      have hne' : (notify_order e s f).pos_size ≠ 0 := by
        rcases hm1 with hm1 | hm1
        · simp at hm1
        · exact hm1
      obtain ⟨e1, e2⟩ := ih (notify_order e s f) h0' h1' hne' hm2
      refine ⟨?_, ?_⟩
      · rw [runFills_cons, e1]
        simp only [posTrace, List.foldl_cons]
        rw [← hpk]
      · rw [runFills_cons]
        calc s.size_peak ≤ (notify_order e s f).size_peak := by
              rw [hpk]; exact le_max_left _ _
          _ ≤ (runFills e (notify_order e s f) (g :: gs)).size_peak := e2

lemma posTrace_cons (e : Bool) (s : LedgerState) (f : Fill) (fs : List Fill) :
    posTrace e s (f :: fs)
      = (notify_order e s f).pos_size :: posTrace e (notify_order e s f) fs := rfl

/-- Splitting a no-mid-flat run: the property restricts to the prefix and,
from the state after the prefix, to the suffix; and if both parts are
nonempty the position is still open after the prefix. -/
lemma noMidFlat_split (e : Bool) (l1 : List Fill) :
    ∀ (s : LedgerState) (l2 : List Fill),
    noMidFlat e s (l1 ++ l2) = true →
    noMidFlat e (runFills e s l1) l2 = true ∧
    noMidFlat e s l1 = true ∧
    (l1 ≠ [] → l2 ≠ [] → (runFills e s l1).pos_size ≠ 0) := by
  induction l1 with
  | nil =>
    intro s l2 h
    exact ⟨h, rfl, fun h1 _ => absurd rfl h1⟩
  | cons f l1 ih =>
    intro s l2 h
    simp only [List.cons_append, noMidFlat, Bool.and_eq_true, Bool.or_eq_true,
      decide_eq_true_eq] at h
    obtain ⟨hh, ht⟩ := h
    obtain ⟨ta, tc, tb⟩ := ih (notify_order e s f) l2 ht
    refine ⟨by rw [runFills_cons]; exact ta, ?_, ?_⟩
    · simp only [noMidFlat, Bool.and_eq_true, Bool.or_eq_true, decide_eq_true_eq]
      refine ⟨?_, tc⟩
      cases l1 with
      | nil => left; rfl
      | cons g gs =>
        right
        rcases hh with hh | hh
        · simp at hh
        · exact hh
    · intro _ hl2
      rw [runFills_cons]
      cases l1 with
      | nil =>
        rcases hh with hh | hh
        · cases l2 with
          | nil => exact absurd rfl hl2
          | cons x xs => simp at hh
        · exact hh
      | cons g gs => exact tb (by simp) hl2

/-- Claim C7: within the life of one position — a BUY fill from flat
followed by fills after none of which the position returns to flat until
the very end — `_size_peak` is monotone non-decreasing from fill to fill,
dominates `_pos_size` after every fill, and at the end of the sequence
equals the maximum position size observed after each of the position's
fills. -/
theorem peak_tracks_running_max (e : Bool) (s0 : LedgerState) (f0 : Fill)
    (fs fs1 fs2 fs3 : List Fill)
    (hflat : s0.pos_size = 0) (hbuy : f0.side = Side.buy)
    (hmid : noMidFlat e s0 (f0 :: fs) = true)
    (hsplit : fs = fs1 ++ fs2 ++ fs3) :
    (runFills e s0 (f0 :: fs1)).size_peak
      ≤ (runFills e s0 (f0 :: (fs1 ++ fs2))).size_peak ∧
    (runFills e s0 (f0 :: fs1)).pos_size ≤ (runFills e s0 (f0 :: fs1)).size_peak ∧
    (runFills e s0 (f0 :: fs)).size_peak = (posTrace e s0 (f0 :: fs)).foldl max 0 := by
  have hs1pos : (notify_order e s0 f0).pos_size = |f0.size| := by
    rw [buy_pos e s0 f0 hbuy, hflat, zero_add]
  have hs1peak : (notify_order e s0 f0).size_peak = |f0.size| :=
    buy_peak_flat e s0 f0 hbuy hflat
  have h0' : 0 ≤ (notify_order e s0 f0).pos_size := by
    rw [hs1pos]; exact abs_nonneg _
  have h1' : (notify_order e s0 f0).pos_size ≤ (notify_order e s0 f0).size_peak := by
    rw [hs1pos, hs1peak]
  simp only [noMidFlat, Bool.and_eq_true, Bool.or_eq_true, decide_eq_true_eq] at hmid
  obtain ⟨hm1, hm2⟩ := hmid
  refine ⟨?_, ?_, ?_⟩
  · -- monotonicity between successive prefixes
    rw [runFills_cons, runFills_cons, runFills_append]
    cases hf2 : fs2 with
    | nil => simp [runFills]
    | cons g gs =>
      have hmid' : noMidFlat e (notify_order e s0 f0) (fs1 ++ (fs2 ++ fs3)) = true := by
        rw [← List.append_assoc, ← hsplit]; exact hm2
      obtain ⟨ta, tc, tb⟩ := noMidFlat_split e fs1 (notify_order e s0 f0) (fs2 ++ fs3) hmid'
      have hf23 : fs2 ++ fs3 ≠ [] := by simp [hf2]
      have hposA : (runFills e (notify_order e s0 f0) fs1).pos_size ≠ 0 := by
        cases hf1 : fs1 with
        | nil =>
          simp only [hf1, runFills, List.foldl_nil]
          rcases hm1 with hm1 | hm1
          · rw [hsplit, hf1, hf2] at hm1; simp at hm1
          · exact hm1
        | cons x xs =>
          rw [← hf1]
          exact tb (by simp [hf1]) hf23
      have hmidA : noMidFlat e (runFills e (notify_order e s0 f0) fs1) fs2 = true :=
        (noMidFlat_split e fs2 (runFills e (notify_order e s0 f0) fs1) fs3 ta).2.1
      obtain ⟨i0, i1⟩ := inv_run e fs1 (notify_order e s0 f0) h0' h1'
      rw [← hf2]
      exact (peak_run e fs2 (runFills e (notify_order e s0 f0) fs1) i0 i1 hposA hmidA).2
  · rw [runFills_cons]
    exact (inv_run e fs1 (notify_order e s0 f0) h0' h1').2
  · rcases hm1 with hm1 | hm1
    · have hfs : fs = [] := by simpa using hm1
      subst hfs
      rw [runFills_cons, posTrace_cons]
      simp only [runFills, List.foldl_nil, posTrace, List.foldl_cons]
      rw [hs1peak, hs1pos, max_eq_right (abs_nonneg f0.size)]
    · obtain ⟨e1, _⟩ := peak_run e fs (notify_order e s0 f0) h0' h1' hm1 hm2
      rw [runFills_cons, e1, posTrace_cons]
      simp only [List.foldl_cons]
      rw [hs1peak, hs1pos, max_eq_right (abs_nonneg f0.size)]

/-- Witness for C7: the Scenario B fills form one position's life
(BUY 50, BUY 50, SELL 60, SELL 40); the peak after the first two fills is
monotone into the third, dominates the position, and finally equals the
maximum observed position size. -/
theorem peak_tracks_running_max_witness :
    (runFills true initState
      [{ time := 1, side := Side.buy, size := 50, price := 10, comm := none },
       { time := 2, side := Side.buy, size := 50, price := 12, comm := none }]).size_peak
      ≤ (runFills true initState
          [{ time := 1, side := Side.buy, size := 50, price := 10, comm := none },
           { time := 2, side := Side.buy, size := 50, price := 12, comm := none },
           { time := 3, side := Side.sell, size := -60, price := 13, comm := none }]).size_peak ∧
    (runFills true initState
      [{ time := 1, side := Side.buy, size := 50, price := 10, comm := none },
       { time := 2, side := Side.buy, size := 50, price := 12, comm := none }]).pos_size
      ≤ (runFills true initState
          [{ time := 1, side := Side.buy, size := 50, price := 10, comm := none },
           { time := 2, side := Side.buy, size := 50, price := 12, comm := none }]).size_peak ∧
    (runFills true initState
      [{ time := 1, side := Side.buy, size := 50, price := 10, comm := none },
       { time := 2, side := Side.buy, size := 50, price := 12, comm := none },
       { time := 3, side := Side.sell, size := -60, price := 13, comm := none },
       { time := 4, side := Side.sell, size := -40, price := 14, comm := none }]).size_peak
      = (posTrace true initState
          [{ time := 1, side := Side.buy, size := 50, price := 10, comm := none },
           { time := 2, side := Side.buy, size := 50, price := 12, comm := none },
           { time := 3, side := Side.sell, size := -60, price := 13, comm := none },
           { time := 4, side := Side.sell, size := -40, price := 14, comm := none }]).foldl max 0 :=
  peak_tracks_running_max true initState
    { time := 1, side := Side.buy, size := 50, price := 10, comm := none }
    [{ time := 2, side := Side.buy, size := 50, price := 12, comm := none },
     { time := 3, side := Side.sell, size := -60, price := 13, comm := none },
     { time := 4, side := Side.sell, size := -40, price := 14, comm := none }]
    [{ time := 2, side := Side.buy, size := 50, price := 12, comm := none }]
    [{ time := 3, side := Side.sell, size := -60, price := 13, comm := none }]
    [{ time := 4, side := Side.sell, size := -40, price := 14, comm := none }]
    rfl rfl
    (by norm_num [noMidFlat, notify_order, initState, Fill.commVal])
    rfl

end QuantLedger
